import Mathlib

/-!
Verification of the `mkfs` layout calculator and multi-disk metadata
initializer (`src/mkfs.c`) against its natural-language specification.

The embedding below translates `mkfs.c` into Lean:
pure layout arithmetic becomes pure functions, the per-disk format loop of
`main` becomes a recursive function threading an explicit run state (write
log, opened/created files, per-disk images), and `exit`-on-error becomes an
`Except`/`Option MkfsError` outcome.  `size_t`/`off_t` arithmetic is
modelled by `Nat` (the spec reasons about ideal sizes; `lseek` guarantees a
non-negative disk size before the layout is computed).

`wfs.h` is not part of the repository sources, so the record layouts it
declares are modelled from the spec where needed (see the doc comments of
`SIZEOF_WFS_SB`, `N_BLOCKS`, `BLOCK_SIZE`).  All field names and all
arithmetic come from `mkfs.c` itself.
-/

namespace Mkfs

/-- Modelled from the spec: `BLOCK_SIZE` is declared in `wfs.h`, which is
not under `src/`; the spec fixes the block size to the constant 512
("`block_size`: fixed constant (512 bytes)"). -/
def BLOCK_SIZE : Nat := 512

/-- Size of a C `int`, used by `mkfs.c` as the bitmap word size
(`sizeof(int)` at lines 22, 23, 45, 109). -/
def SIZEOF_INT : Nat := 4

/-- Modelled from the spec: `struct wfs_sb` is declared in `wfs.h`, which
is not under `src/`.  The superblock is a fixed-size record (spec sections 3
and 6) whose fields used by `mkfs.c` are the six 8-byte count/offset fields
assigned in `initialize_superblock`; its `sizeof` is therefore 48. -/
def SIZEOF_WFS_SB : Nat := 48

/-- Rounding up to the next multiple of 32, as written at `mkfs.c:17` and
`mkfs.c:159`: `(n + 31) / 32 * 32`, read as ideal (unbounded) arithmetic.
In C the expression is evaluated in `size_t`; `roundUp32_sizet` below
models that wrapping arithmetic, and the two agree for every
`n ≤ 2^64 - 32` (`roundUp32_sizet_eq`). -/
def roundUp32 (n : Nat) : Nat := (n + 31) / 32 * 32

/-- The same rounding `(n + 31) / 32 * 32` as the 64-bit `size_t`
arithmetic of `mkfs.c:17` and `mkfs.c:159` actually computes it: the
addition (and the final product) wrap modulo `2^64`.  For
`n > 2^64 - 32` — reachable, since `strtoul` clamps an oversized `-i`/`-b`
argument to `ULONG_MAX` — the addition overflows and the result collapses
to 0 instead of rounding up. -/
def roundUp32_sizet (n : Nat) : Nat := (n + 31) % 2 ^ 64 / 32 * 32 % 2 ^ 64

/-- The superblock record: exactly the fields of `struct wfs_sb` that
`initialize_superblock` assigns (`mkfs.c:19-28`). -/
structure wfs_sb where
  num_inodes : Nat
  num_data_blocks : Nat
  i_bitmap_ptr : Nat
  d_bitmap_ptr : Nat
  i_blocks_ptr : Nat
  d_blocks_ptr : Nat
deriving DecidableEq, Repr

/-- Error taxonomy of the tool (spec section 7).  `mkfs.c` reports usage
errors, open failures, the disk-too-small layout error, and I/O errors. -/
inductive MkfsError where
  | Usage
  | OpenFailed
  | DiskTooSmall
  | IoError
deriving DecidableEq, Repr

/-- The pure part of `initialize_superblock` (`mkfs.c:15-28`): rounds the
inode count up to a multiple of 32 and computes the four region offsets.
`num_blocks` is used exactly as passed (the caller `main` rounds it at
`mkfs.c:159`). -/
def computeSuperblock (num_inodes num_blocks : Nat) : wfs_sb :=
  let ni := (num_inodes + 31) / 32 * 32
  let inode_bitmap_size := ((ni + 31) / 32) * SIZEOF_INT
  let data_bitmap_size := ((num_blocks + 31) / 32) * SIZEOF_INT
  let i_bitmap_ptr := SIZEOF_WFS_SB
  let d_bitmap_ptr := i_bitmap_ptr + inode_bitmap_size
  let i_blocks_ptr := (d_bitmap_ptr + data_bitmap_size + BLOCK_SIZE - 1) / BLOCK_SIZE * BLOCK_SIZE
  let d_blocks_ptr := (i_blocks_ptr + ni * BLOCK_SIZE + BLOCK_SIZE - 1) / BLOCK_SIZE * BLOCK_SIZE
  { num_inodes := ni
    num_data_blocks := num_blocks
    i_bitmap_ptr := i_bitmap_ptr
    d_bitmap_ptr := d_bitmap_ptr
    i_blocks_ptr := i_blocks_ptr
    d_blocks_ptr := d_blocks_ptr }

/-- `initialize_superblock` (`mkfs.c:15-35`): computes the layout and then
validates it against the disk size, exiting with the disk-too-small
diagnostic when `d_blocks_ptr + num_blocks * BLOCK_SIZE > disk_size`
(`mkfs.c:31`).  The `raid_mode` parameter is present in the C signature and
is never read by the function body. -/
def initialize_superblock (num_inodes num_blocks : Nat) (raid_mode : Int)
    (disk_size : Nat) : Except MkfsError wfs_sb :=
  if (computeSuperblock num_inodes num_blocks).d_blocks_ptr
      + num_blocks * BLOCK_SIZE > disk_size then
    Except.error MkfsError.DiskTooSmall
  else
    Except.ok (computeSuperblock num_inodes num_blocks)

/-- The fit condition checked at `mkfs.c:31`, as a predicate on the disk
size: the data region ends within the disk. -/
def layoutFits (num_inodes num_blocks disk_size : Nat) : Prop :=
  (computeSuperblock num_inodes num_blocks).d_blocks_ptr
    + num_blocks * BLOCK_SIZE ≤ disk_size

instance (ni nb d : Nat) : Decidable (layoutFits ni nb d) := by
  unfold layoutFits; infer_instance

/-- `initialize_bitmap` (`mkfs.c:44-64`): builds a zero-filled bitmap of
`(num_bits + 31) / 32` 32-bit words, setting word 0 to `1` when
`allocate_first` is requested, and writes it in one `pwrite`.  The model
returns the word list that is written. -/
def initialize_bitmap (num_bits : Nat) (allocate_first : Bool) : List Nat :=
  let words := List.replicate ((num_bits + 31) / 32) 0
  if allocate_first then words.set 0 1 else words

/-- Reading bit `j` of a bitmap stored as a list of 32-bit words: bit
`j % 32` of word `j / 32` (missing words read as zero). -/
def bitmapBit (words : List Nat) (j : Nat) : Bool :=
  Nat.testBit (words.getD (j / 32) 0) (j % 32)

/-- Modelled from the spec: the `S_IFDIR` file-type bits from `sys/stat.h`
(not part of this repository), the standard octal constant `0o040000`. -/
def S_IFDIR : Nat := 0o040000

/-- Modelled from the spec: the block-pointer array length of
`struct wfs_inode` is declared in `wfs.h`, which is not under `src/`; the
spec describes "a fixed-length array of block pointers (direct pointers
plus one indirect pointer slot)".  Its exact length does not matter for any
claim (only all-zero versus not), so the model fixes 7 direct + 1 indirect
slots. -/
def N_BLOCKS : Nat := 8

/-- The inode record: the fields of `struct wfs_inode` assigned by
`initialize_root_inode` (`mkfs.c:79-89`) plus the block-pointer array. -/
structure wfs_inode where
  num : Nat
  mode : Nat
  uid : Nat
  gid : Nat
  size : Nat
  nlinks : Nat
  atim : Nat
  mtim : Nat
  ctim : Nat
  blocks : List Nat
deriving DecidableEq, Repr

/-- The all-zero inode record `struct wfs_inode empty_inode = {0}`
(`mkfs.c:67`). -/
def emptyInode : wfs_inode :=
  { num := 0, mode := 0, uid := 0, gid := 0, size := 0, nlinks := 0
    atim := 0, mtim := 0, ctim := 0, blocks := List.replicate N_BLOCKS 0 }

/-- `initialize_inodes` (`mkfs.c:66-76`): writes the all-zero inode record
into each of the `num_inodes` slots, one slot per `BLOCK_SIZE`.  The model
returns the slot contents. -/
def initialize_inodes (num_inodes : Nat) : List wfs_inode :=
  List.replicate num_inodes emptyInode

/-- The root inode constructed by `initialize_root_inode` (`mkfs.c:79-89`):
directory type with permissions 0755, the invoking user's uid/gid, size 0,
link count 2, all three timestamps the format time, and (via the designated
initializer zeroing the remaining fields) all block pointers zero. -/
def rootInode (uid gid now : Nat) : wfs_inode :=
  { num := 0, mode := S_IFDIR ||| 0o755, uid := uid, gid := gid
    size := 0, nlinks := 2, atim := now, mtim := now, ctim := now
    blocks := List.replicate N_BLOCKS 0 }

/-! ### The CLI surface and the multi-disk format run

`main` (`mkfs.c:120-204`) parses the options with `getopt`, validates them,
rounds the block count, and then formats each disk in order: open with
`O_CREAT` (a missing file is created empty), measure the size with `lseek`,
compute and validate the layout (exiting on failure), and write superblock,
both bitmaps, and the inode table.  After every disk succeeds,
`initialize_root_inode` writes the root inode and the first inode-bitmap
word on every disk.  The model records every `pwrite` as a `WriteEvent` and
the final metadata regions of each disk as a `DiskImage`. -/

/-- One parsed `getopt` option of `main`'s option string `"r:d:i:b:"`.
`r` carries the `atoi` value (any integer), `i` and `b` the `strtoul`
values. -/
inductive CliOpt where
  | r (v : Int)
  | d (path : String)
  | i (v : Nat)
  | b (v : Nat)
deriving DecidableEq, Repr

/-- Number of `-d` options in an argument list. -/
def countD : List CliOpt → Nat
  | [] => 0
  | CliOpt.d _ :: rest => countD rest + 1
  | _ :: rest => countD rest

/-- The configuration `main` has accumulated after the `getopt` loop. -/
structure Config where
  raid_mode : Int
  disks : List String
  num_inodes : Nat
  num_blocks : Nat
deriving DecidableEq, Repr

/-- The `getopt` loop of `main` (`mkfs.c:128-157`) including the final
validation: an `-r` value other than 0/1 is rejected immediately; a 33rd
`-d` is rejected (`num_disks >= 32`, `mkfs.c:138`); after the loop the run
fails unless a RAID mode was given, at least two disks were given, and both
counts are nonzero (`mkfs.c:155`). -/
def parseLoop : List CliOpt → Int → List String → Nat → Nat → Except MkfsError Config
  | [], raid, disks, ni, nb =>
      if raid = -1 ∨ disks.length < 2 ∨ ni = 0 ∨ nb = 0 then
        Except.error MkfsError.Usage
      else
        Except.ok { raid_mode := raid, disks := disks, num_inodes := ni, num_blocks := nb }
  | CliOpt.r v :: rest, _, disks, ni, nb =>
      if v ≠ 0 ∧ v ≠ 1 then Except.error MkfsError.Usage
      else parseLoop rest v disks ni nb
  | CliOpt.d p :: rest, raid, disks, ni, nb =>
      if disks.length ≥ 32 then Except.error MkfsError.Usage
      else parseLoop rest raid (disks ++ [p]) ni nb
  | CliOpt.i v :: rest, raid, disks, _, nb => parseLoop rest raid disks v nb
  | CliOpt.b v :: rest, raid, disks, ni, _ => parseLoop rest raid disks ni v

/-- Argument parsing from `main`'s initial state (`raid_mode = -1`, no
disks, both counts zero). -/
def parseArgs (opts : List CliOpt) : Except MkfsError Config :=
  parseLoop opts (-1) [] 0 0

/-- What a single `pwrite` of the format run wrote. -/
inductive WriteKind where
  | superblockRec
  | inodeBitmap
  | dataBitmap
  | inodeSlot (k : Nat)
  | rootInodeRec
  | rootBitmapWord
deriving DecidableEq, Repr

/-- One `pwrite` of the format run: target disk (by position in the `-d`
list), byte offset, and which structure was written. -/
structure WriteEvent where
  disk : Nat
  offset : Nat
  kind : WriteKind
deriving DecidableEq, Repr

/-- The metadata regions of one formatted disk image. -/
structure DiskImage where
  path : String
  size : Nat
  sb : wfs_sb
  iBitmap : List Nat
  dBitmap : List Nat
  table : List wfs_inode
deriving DecidableEq, Repr

/-- Accumulated observable state of a format run: files opened (in order),
files newly created by `O_CREAT` with their size at creation, the write
log, and the per-disk images. -/
structure RunState where
  opened : List String
  created : List (String × Nat)
  writes : List WriteEvent
  images : List DiskImage
deriving DecidableEq, Repr

/-- The image written for one disk that passed validation: superblock, a
zero inode bitmap built from the raw inode count (`mkfs.c:181`), a zero
data bitmap built from the rounded block count (`mkfs.c:182`), and an
inode table of `sb.num_inodes` zero records (`mkfs.c:185`). -/
def freshImage (ni nb : Nat) (p : String) (s : Nat) : DiskImage :=
  { path := p, size := s, sb := computeSuperblock ni nb
    iBitmap := initialize_bitmap ni false
    dBitmap := initialize_bitmap nb false
    table := initialize_inodes (computeSuperblock ni nb).num_inodes }

/-- The write events issued for one disk that passed validation, in program
order: superblock, inode bitmap, data bitmap, then one `pwrite` per inode
slot. -/
def diskWrites (ni nb idx : Nat) : List WriteEvent :=
  let sb := computeSuperblock ni nb
  { disk := idx, offset := 0, kind := WriteKind.superblockRec } ::
  { disk := idx, offset := sb.i_bitmap_ptr, kind := WriteKind.inodeBitmap } ::
  { disk := idx, offset := sb.d_bitmap_ptr, kind := WriteKind.dataBitmap } ::
  (List.range sb.num_inodes).map fun k =>
    { disk := idx, offset := sb.i_blocks_ptr + k * BLOCK_SIZE
      kind := WriteKind.inodeSlot k }

/-- The per-disk loop of `main` (`mkfs.c:163-186`).  For each path in
order: open with `O_CREAT` (creating a missing file empty), measure the
size, run `initialize_superblock` against it — on failure the whole run
stops with the state accumulated so far — and otherwise write superblock,
bitmaps and inode table.  Returns the final state, the last computed
superblock (the C variable `superblock` outlives the loop and is reused by
`initialize_root_inode`), and the error, if any. -/
def formatDisks (ni nb : Nat) (raid : Int) :
    List String → Nat → (String → Option Nat) → RunState → Option wfs_sb →
    RunState × Option wfs_sb × Option MkfsError
  | [], _, _, st, sbLast => (st, sbLast, none)
  | p :: rest, idx, fs, st, sbLast =>
    let size := (fs p).getD 0
    let fs' := fun q => if q = p then some size else fs q
    let st1 : RunState :=
      { st with
        opened := st.opened ++ [p]
        created := if fs p = none then st.created ++ [(p, size)] else st.created }
    match initialize_superblock ni nb raid size with
    | Except.error e => (st1, sbLast, some e)
    | Except.ok sb =>
      let st2 : RunState :=
        { st1 with
          writes := st1.writes ++ diskWrites ni nb idx
          images := st1.images ++ [freshImage ni nb p size] }
      formatDisks ni nb raid rest (idx + 1) fs' st2 (some sb)

/-- `initialize_root_inode` (`mkfs.c:78-118`): writes the root inode record
at `superblock->i_blocks_ptr` on every disk, then writes one word with
value 1 at `superblock->i_bitmap_ptr` on every disk, using the superblock
computed for the last disk.  Offsets are block-aligned and each record fits
its slot, so at slot granularity the record write lands in slot
`(sbLast.i_blocks_ptr - img.sb.i_blocks_ptr) / BLOCK_SIZE` of each image's
table, and the word write in word
`(sbLast.i_bitmap_ptr - img.sb.i_bitmap_ptr) / SIZEOF_INT` of its inode
bitmap. -/
def rootPhase (uid gid now : Nat) (sbLast : wfs_sb) (st : RunState) : RunState :=
  let ri := rootInode uid gid now
  let images1 := st.images.map fun img =>
    { img with
      table := img.table.set ((sbLast.i_blocks_ptr - img.sb.i_blocks_ptr) / BLOCK_SIZE) ri }
  let evs1 := (List.range st.images.length).map fun i =>
    { disk := i, offset := sbLast.i_blocks_ptr, kind := WriteKind.rootInodeRec : WriteEvent }
  let images2 := images1.map fun img =>
    { img with
      iBitmap := img.iBitmap.set ((sbLast.i_bitmap_ptr - img.sb.i_bitmap_ptr) / SIZEOF_INT) 1 }
  let evs2 := (List.range st.images.length).map fun i =>
    { disk := i, offset := sbLast.i_bitmap_ptr, kind := WriteKind.rootBitmapWord : WriteEvent }
  { st with images := images2, writes := st.writes ++ evs1 ++ evs2 }

deriving instance DecidableEq for Except

/-- Final observable state of a `mkfs` invocation. -/
structure MkfsState where
  outcome : Except MkfsError Unit
  opened : List String
  created : List (String × Nat)
  writes : List WriteEvent
  images : List DiskImage
deriving DecidableEq, Repr

/-- The whole `main` (`mkfs.c:120-204`): parse and validate the options,
round the block count up to a multiple of 32 (`mkfs.c:159`), format every
disk, and bootstrap the root inode on every disk.  `uid`, `gid` and `now`
model `getuid()`, `getgid()` and `time(NULL)` at format time; `fs` gives
the size of each existing disk-image file (`none` means the file does not
exist and `O_CREAT` will create it empty). -/
def runMkfs (uid gid now : Nat) (opts : List CliOpt) (fs : String → Option Nat) :
    MkfsState :=
  match parseArgs opts with
  | Except.error e => { outcome := Except.error e, opened := [], created := []
                        writes := [], images := [] }
  | Except.ok cfg =>
    let nb := roundUp32 cfg.num_blocks
    let st0 : RunState := { opened := [], created := [], writes := [], images := [] }
    match formatDisks cfg.num_inodes nb cfg.raid_mode cfg.disks 0 fs st0 none with
    | (st, _, some e) =>
      { outcome := Except.error e, opened := st.opened, created := st.created
        writes := st.writes, images := st.images }
    | (st, none, none) =>
      { outcome := Except.ok (), opened := st.opened, created := st.created
        writes := st.writes, images := st.images }
    | (st, some sbLast, none) =>
      let st' := rootPhase uid gid now sbLast st
      { outcome := Except.ok (), opened := st'.opened, created := st'.created
        writes := st'.writes, images := st'.images }

/-- A formatted disk image after the root-inode bootstrap: the fresh image
with the root inode in slot 0 and inode-bitmap word 0 set to 1. -/
def rootedImage (uid gid now ni nb : Nat) (p : String) (s : Nat) : DiskImage :=
  { path := p, size := s, sb := computeSuperblock ni nb
    iBitmap := (initialize_bitmap ni false).set 0 1
    dBitmap := initialize_bitmap nb false
    table := (initialize_inodes (computeSuperblock ni nb).num_inodes).set 0
      (rootInode uid gid now) }

/-! ### Arithmetic helper lemmas about the layout -/

theorem roundUp32_mod (n : Nat) : roundUp32 n % 32 = 0 := by
  unfold roundUp32; omega

theorem roundUp32_div (n : Nat) : (roundUp32 n + 31) / 32 = (n + 31) / 32 := by
  unfold roundUp32; omega

theorem roundUp32_le (n : Nat) : n ≤ roundUp32 n := by
  unfold roundUp32; omega

theorem roundUp32_sizet_eq (n : Nat) (h : n + 31 < 2 ^ 64) :
    roundUp32_sizet n = roundUp32 n := by
  unfold roundUp32_sizet roundUp32
  rw [Nat.mod_eq_of_lt h]
  apply Nat.mod_eq_of_lt
  calc (n + 31) / 32 * 32 ≤ n + 31 := Nat.div_mul_le_self _ _
    _ < 2 ^ 64 := h

theorem computeSuperblock_fields (ni nb : Nat) :
    (computeSuperblock ni nb).num_inodes = roundUp32 ni ∧
    (computeSuperblock ni nb).num_data_blocks = nb ∧
    (computeSuperblock ni nb).i_bitmap_ptr = SIZEOF_WFS_SB ∧
    (computeSuperblock ni nb).d_bitmap_ptr
      = SIZEOF_WFS_SB + ((ni + 31) / 32) * SIZEOF_INT := by
  refine ⟨rfl, rfl, rfl, ?_⟩
  show SIZEOF_WFS_SB + (((ni + 31) / 32 * 32 + 31) / 32) * SIZEOF_INT
      = SIZEOF_WFS_SB + ((ni + 31) / 32) * SIZEOF_INT
  have h := roundUp32_div ni
  unfold roundUp32 at h
  rw [h]

theorem computeSuperblock_i_blocks_aligned (ni nb : Nat) :
    (computeSuperblock ni nb).i_blocks_ptr % BLOCK_SIZE = 0 := by
  show (_ + _ + 512 - 1) / 512 * 512 % 512 = 0
  omega

theorem computeSuperblock_d_blocks_aligned (ni nb : Nat) :
    (computeSuperblock ni nb).d_blocks_ptr % BLOCK_SIZE = 0 := by
  show (_ + _ + 512 - 1) / 512 * 512 % 512 = 0
  omega

theorem computeSuperblock_bitmap_before_table (ni nb : Nat) :
    (computeSuperblock ni nb).d_bitmap_ptr + ((nb + 31) / 32) * SIZEOF_INT
      ≤ (computeSuperblock ni nb).i_blocks_ptr := by
  show (SIZEOF_WFS_SB + _) + _ ≤ (SIZEOF_WFS_SB + _ + _ + 512 - 1) / 512 * 512
  simp only [SIZEOF_WFS_SB, SIZEOF_INT]
  omega

theorem computeSuperblock_table_before_data (ni nb : Nat) :
    (computeSuperblock ni nb).i_blocks_ptr
        + (computeSuperblock ni nb).num_inodes * BLOCK_SIZE
      ≤ (computeSuperblock ni nb).d_blocks_ptr := by
  unfold computeSuperblock
  simp only [SIZEOF_WFS_SB, SIZEOF_INT, BLOCK_SIZE]
  omega

theorem computeSuperblock_d_blocks_pos (ni nb : Nat) :
    BLOCK_SIZE ≤ (computeSuperblock ni nb).d_blocks_ptr := by
  unfold computeSuperblock
  simp only [SIZEOF_WFS_SB, SIZEOF_INT, BLOCK_SIZE]
  omega

/-! ### Behavioral helper lemmas -/

theorem initialize_superblock_error_iff (ni nb : Nat) (r : Int) (d : Nat) :
    initialize_superblock ni nb r d = Except.error MkfsError.DiskTooSmall ↔
      ¬ layoutFits ni nb d := by
  unfold initialize_superblock layoutFits
  by_cases h : (computeSuperblock ni nb).d_blocks_ptr + nb * BLOCK_SIZE > d
  · simp [h] <;> omega
  · simp [h] <;> omega

theorem initialize_superblock_ok_iff (ni nb : Nat) (r : Int) (d : Nat) (sb : wfs_sb) :
    initialize_superblock ni nb r d = Except.ok sb ↔
      layoutFits ni nb d ∧ sb = computeSuperblock ni nb := by
  constructor
  · intro he
    unfold initialize_superblock at he
    split at he
    · exact absurd he (by simp)
    · rename_i hc
      injection he with he'
      subst he'
      refine ⟨?_, rfl⟩
      unfold layoutFits
      omega
  · rintro ⟨hf, rfl⟩
    unfold layoutFits at hf
    unfold initialize_superblock
    rw [if_neg (by omega)]

theorem not_layoutFits_zero (ni nb : Nat) : ¬ layoutFits ni nb 0 := by
  unfold layoutFits
  have h := computeSuperblock_d_blocks_pos ni nb
  unfold BLOCK_SIZE at h
  omega

theorem openUpdate_getD (fs : String → Option Nat) (p q : String) :
    (((fun x => if x = p then some ((fs p).getD 0) else fs x) q).getD 0)
      = (fs q).getD 0 := by
  by_cases h : q = p
  · subst h; simp
  · simp [h]

theorem diskWrites_disk (ni nb idx : Nat) (e : WriteEvent)
    (h : e ∈ diskWrites ni nb idx) : e.disk = idx := by
  unfold diskWrites at h
  simp only [List.mem_cons, List.mem_map, List.mem_range] at h
  rcases h with h | h | h | ⟨k, -, h⟩ <;> subst h <;> rfl

theorem parseLoop_error_usage :
    ∀ (opts : List CliOpt) (raid : Int) (disks : List String) (ni nb : Nat)
      (e : MkfsError),
      parseLoop opts raid disks ni nb = Except.error e → e = MkfsError.Usage := by
  intro opts
  induction opts with
  | nil =>
    intro raid disks ni nb e h
    simp only [parseLoop] at h
    split at h
    · simp_all
    · simp_all
  | cons o rest ih =>
    intro raid disks ni nb e h
    cases o with
    | r v =>
      simp only [parseLoop] at h
      split at h
      · simp_all
      · exact ih _ _ _ _ _ h
    | d p =>
      simp only [parseLoop] at h
      split at h
      · simp_all
      · exact ih _ _ _ _ _ h
    | i v =>
      simp only [parseLoop] at h
      exact ih _ _ _ _ _ h
    | b v =>
      simp only [parseLoop] at h
      exact ih _ _ _ _ _ h

theorem parseLoop_ok_facts :
    ∀ (opts : List CliOpt) (raid : Int) (disks : List String) (ni nb : Nat)
      (cfg : Config),
      parseLoop opts raid disks ni nb = Except.ok cfg →
      cfg.num_inodes ≠ 0 ∧ cfg.num_blocks ≠ 0 ∧ 2 ≤ cfg.disks.length := by
  intro opts
  induction opts with
  | nil =>
    intro raid disks ni nb cfg h
    simp only [parseLoop] at h
    split at h
    · simp_all
    · rename_i hc
      push_neg at hc
      cases h
      obtain ⟨-, h2, h3, h4⟩ := hc
      refine ⟨h3, h4, ?_⟩
      show 2 ≤ disks.length
      omega
  | cons o rest ih =>
    intro raid disks ni nb cfg h
    cases o with
    | r v =>
      simp only [parseLoop] at h
      split at h
      · simp_all
      · exact ih _ _ _ _ _ h
    | d p =>
      simp only [parseLoop] at h
      split at h
      · simp_all
      · exact ih _ _ _ _ _ h
    | i v =>
      simp only [parseLoop] at h
      exact ih _ _ _ _ _ h
    | b v =>
      simp only [parseLoop] at h
      exact ih _ _ _ _ _ h

theorem parseLoop_tooMany :
    ∀ (opts : List CliOpt) (raid : Int) (disks : List String) (ni nb : Nat),
      disks.length ≤ 32 → 33 ≤ disks.length + countD opts →
      parseLoop opts raid disks ni nb = Except.error MkfsError.Usage := by
  intro opts
  induction opts with
  | nil =>
    intro raid disks ni nb h32 hcnt
    simp only [countD] at hcnt
    omega
  | cons o rest ih =>
    intro raid disks ni nb h32 hcnt
    cases o with
    | r v =>
      simp only [countD] at hcnt
      simp only [parseLoop]
      split
      · rfl
      · exact ih _ _ _ _ h32 hcnt
    | d p =>
      simp only [countD] at hcnt
      simp only [parseLoop]
      split
      · rfl
      · rename_i hlt
        push_neg at hlt
        refine ih _ _ _ _ ?_ ?_ <;> simp <;> omega
    | i v =>
      simp only [countD] at hcnt
      simp only [parseLoop]
      exact ih _ _ _ _ h32 hcnt
    | b v =>
      simp only [countD] at hcnt
      simp only [parseLoop]
      exact ih _ _ _ _ h32 hcnt

theorem formatDisks_writes_fits (ni nb : Nat) (r : Int) :
    ∀ (paths : List String) (idx : Nat) (fs : String → Option Nat)
      (st : RunState) (sbL : Option wfs_sb),
      ∀ e ∈ (formatDisks ni nb r paths idx fs st sbL).1.writes,
        e ∈ st.writes ∨
        ∃ j, j < paths.length ∧ e.disk = idx + j ∧
          ∀ j', j' ≤ j → layoutFits ni nb ((fs (paths.getD j' "")).getD 0) := by
  intro paths
  induction paths with
  | nil =>
    intro idx fs st sbL e he
    simp only [formatDisks] at he
    exact Or.inl he
  | cons p rest ih =>
    intro idx fs st sbL e he
    by_cases hfit : layoutFits ni nb ((fs p).getD 0)
    · have hinit : initialize_superblock ni nb r ((fs p).getD 0)
          = Except.ok (computeSuperblock ni nb) :=
        (initialize_superblock_ok_iff ni nb r ((fs p).getD 0)
          (computeSuperblock ni nb)).mpr ⟨hfit, rfl⟩
      simp only [formatDisks, hinit] at he
      rcases ih _ _ _ _ e he with h1 | ⟨j, hj, hd, hfj⟩
      · rcases List.mem_append.mp (by simpa using h1) with h2 | h2
        · exact Or.inl h2
        · refine Or.inr ⟨0, by simp, by simpa using diskWrites_disk ni nb idx e h2, ?_⟩
          intro j' hj'
          have hj0 : j' = 0 := by omega
          subst hj0
          simpa using hfit
      · refine Or.inr ⟨j + 1, by simp only [List.length_cons]; omega, by omega, ?_⟩
        intro j' hj'
        cases j' with
        | zero => simpa using hfit
        | succ j'' =>
          have hx := hfj j'' (by omega)
          rw [openUpdate_getD] at hx
          simpa using hx
    · have hinit : initialize_superblock ni nb r ((fs p).getD 0)
          = Except.error MkfsError.DiskTooSmall :=
        (initialize_superblock_error_iff ni nb r ((fs p).getD 0)).mpr hfit
      simp only [formatDisks, hinit] at he
      exact Or.inl (by simpa using he)

theorem formatDisks_err_of_violation (ni nb : Nat) (r : Int) :
    ∀ (paths : List String) (idx : Nat) (fs : String → Option Nat)
      (st : RunState) (sbL : Option wfs_sb) (j : Nat),
      j < paths.length →
      ¬ layoutFits ni nb ((fs (paths.getD j "")).getD 0) →
      (formatDisks ni nb r paths idx fs st sbL).2.2 = some MkfsError.DiskTooSmall := by
  intro paths
  induction paths with
  | nil =>
    intro idx fs st sbL j hj hviol
    simp at hj
  | cons p rest ih =>
    intro idx fs st sbL j hj hviol
    by_cases hfit : layoutFits ni nb ((fs p).getD 0)
    · have hinit : initialize_superblock ni nb r ((fs p).getD 0)
          = Except.ok (computeSuperblock ni nb) :=
        (initialize_superblock_ok_iff ni nb r ((fs p).getD 0)
          (computeSuperblock ni nb)).mpr ⟨hfit, rfl⟩
      simp only [formatDisks, hinit]
      cases j with
      | zero => exact absurd hfit (by simpa using hviol)
      | succ j' =>
        refine ih _ _ _ _ j' (by simpa using hj) ?_
        rw [openUpdate_getD]
        simpa using hviol
    · have hinit : initialize_superblock ni nb r ((fs p).getD 0)
          = Except.error MkfsError.DiskTooSmall :=
        (initialize_superblock_error_iff ni nb r ((fs p).getD 0)).mpr hfit
      simp only [formatDisks, hinit]

theorem formatDisks_missing (ni nb : Nat) (r : Int) :
    ∀ (paths : List String) (idx : Nat) (fs : String → Option Nat)
      (st : RunState) (sbL : Option wfs_sb) (k : Nat) (p : String),
      paths[k]? = some p → fs p = none →
      (∀ j, j < k → layoutFits ni nb ((fs (paths.getD j "")).getD 0)) →
      (formatDisks ni nb r paths idx fs st sbL).2.2 = some MkfsError.DiskTooSmall ∧
      (p, 0) ∈ (formatDisks ni nb r paths idx fs st sbL).1.created ∧
      ∀ e ∈ (formatDisks ni nb r paths idx fs st sbL).1.writes,
        e ∈ st.writes ∨ e.disk < idx + k := by
  intro paths
  induction paths with
  | nil =>
    intro idx fs st sbL k p hk
    simp at hk
  | cons q rest ih =>
    intro idx fs st sbL k p hk hmiss hfits
    cases k with
    | zero =>
      have hq : q = p := by simpa using hk
      subst hq
      have hinit0 : initialize_superblock ni nb r 0 = Except.error MkfsError.DiskTooSmall :=
        (initialize_superblock_error_iff ni nb r 0).mpr (not_layoutFits_zero ni nb)
      simp only [formatDisks, hmiss, Option.getD_none, hinit0, if_true]
      refine ⟨by trivial, by simp, ?_⟩
      intro e he
      exact Or.inl (by simpa using he)
    | succ k' =>
      have hq : layoutFits ni nb ((fs q).getD 0) := by
        simpa using hfits 0 (by omega)
      have hqp : q ≠ p := by
        intro hqq
        rw [hqq, hmiss] at hq
        exact not_layoutFits_zero ni nb (by simpa using hq)
      have hinit : initialize_superblock ni nb r ((fs q).getD 0)
          = Except.ok (computeSuperblock ni nb) :=
        (initialize_superblock_ok_iff ni nb r ((fs q).getD 0)
          (computeSuperblock ni nb)).mpr ⟨hq, rfl⟩
      have hmiss' : (fun x => if x = q then some ((fs q).getD 0) else fs x) p = none := by
        have hpq : p ≠ q := fun h => hqp h.symm
        simp only [hpq, if_false, hmiss]
      have hfits' : ∀ j, j < k' →
          layoutFits ni nb
            (((fun x => if x = q then some ((fs q).getD 0) else fs x)
              (rest.getD j "")).getD 0) := by
        intro j hj
        show layoutFits ni nb
          ((if (rest.getD j "") = q then some ((fs q).getD 0)
            else fs (rest.getD j "")).getD 0)
        rw [openUpdate_getD]
        simpa using hfits (j + 1) (by omega)
      simp only [formatDisks, hinit]
      obtain ⟨h1, h2, h3⟩ := ih (idx + 1)
        (fun x => if x = q then some ((fs q).getD 0) else fs x)
        { opened := (st.opened ++ [q])
          created := if fs q = none then st.created ++ [(q, (fs q).getD 0)] else st.created
          writes := st.writes ++ diskWrites ni nb idx
          images := st.images ++ [freshImage ni nb q ((fs q).getD 0)] }
        (some (computeSuperblock ni nb)) k' p (by simpa using hk) hmiss' hfits'
      refine ⟨h1, h2, ?_⟩
      intro e he
      rcases h3 e he with h4 | h4
      · rcases List.mem_append.mp (by simpa using h4) with h5 | h5
        · exact Or.inl h5
        · have := diskWrites_disk ni nb idx e h5
          right
          omega
      · right
        omega

theorem formatDisks_images_char (ni nb : Nat) (r : Int) :
    ∀ (paths : List String) (idx : Nat) (fs : String → Option Nat)
      (st : RunState) (sbL : Option wfs_sb),
      ∀ img ∈ (formatDisks ni nb r paths idx fs st sbL).1.images,
        img ∈ st.images ∨
        ∃ p s, layoutFits ni nb s ∧ img = freshImage ni nb p s := by
  intro paths
  induction paths with
  | nil =>
    intro idx fs st sbL img himg
    simp only [formatDisks] at himg
    exact Or.inl himg
  | cons p rest ih =>
    intro idx fs st sbL img himg
    by_cases hfit : layoutFits ni nb ((fs p).getD 0)
    · have hinit : initialize_superblock ni nb r ((fs p).getD 0)
          = Except.ok (computeSuperblock ni nb) :=
        (initialize_superblock_ok_iff ni nb r ((fs p).getD 0)
          (computeSuperblock ni nb)).mpr ⟨hfit, rfl⟩
      simp only [formatDisks, hinit] at himg
      rcases ih _ _ _ _ img himg with h1 | h1
      · have h1' : img ∈ st.images ∨ img = freshImage ni nb p ((fs p).getD 0) := by
          simpa using h1
        rcases h1' with h2 | h2
        · exact Or.inl h2
        · exact Or.inr ⟨p, (fs p).getD 0, hfit, h2⟩
      · exact Or.inr h1
    · have hinit : initialize_superblock ni nb r ((fs p).getD 0)
          = Except.error MkfsError.DiskTooSmall :=
        (initialize_superblock_error_iff ni nb r ((fs p).getD 0)).mpr hfit
      simp only [formatDisks, hinit] at himg
      exact Or.inl (by simpa using himg)

theorem formatDisks_sbLast (ni nb : Nat) (r : Int) :
    ∀ (paths : List String) (idx : Nat) (fs : String → Option Nat)
      (st : RunState) (sbL : Option wfs_sb),
      (formatDisks ni nb r paths idx fs st sbL).2.2 = none →
      (formatDisks ni nb r paths idx fs st sbL).2.1 = some (computeSuperblock ni nb) ∨
      (paths = [] ∧ (formatDisks ni nb r paths idx fs st sbL).2.1 = sbL) := by
  intro paths
  induction paths with
  | nil =>
    intro idx fs st sbL _
    exact Or.inr ⟨rfl, rfl⟩
  | cons p rest ih =>
    intro idx fs st sbL herr
    by_cases hfit : layoutFits ni nb ((fs p).getD 0)
    · have hinit : initialize_superblock ni nb r ((fs p).getD 0)
          = Except.ok (computeSuperblock ni nb) :=
        (initialize_superblock_ok_iff ni nb r ((fs p).getD 0)
          (computeSuperblock ni nb)).mpr ⟨hfit, rfl⟩
      simp only [formatDisks, hinit] at herr ⊢
      rcases ih _ _ _ _ herr with h1 | ⟨hrest, h1⟩
      · exact Or.inl h1
      · exact Or.inl h1
    · have hinit : initialize_superblock ni nb r ((fs p).getD 0)
          = Except.error MkfsError.DiskTooSmall :=
        (initialize_superblock_error_iff ni nb r ((fs p).getD 0)).mpr hfit
      simp only [formatDisks, hinit] at herr
      simp at herr

theorem formatDisks_raid_irrel (ni nb : Nat) (r r' : Int) :
    ∀ (paths : List String) (idx : Nat) (fs : String → Option Nat)
      (st : RunState) (sbL : Option wfs_sb),
      formatDisks ni nb r paths idx fs st sbL
        = formatDisks ni nb r' paths idx fs st sbL := by
  intro paths
  induction paths with
  | nil => intro idx fs st sbL; rfl
  | cons p rest ih =>
    intro idx fs st sbL
    have hseq : initialize_superblock ni nb r ((fs p).getD 0)
        = initialize_superblock ni nb r' ((fs p).getD 0) := rfl
    simp only [formatDisks, hseq]
    cases hI : initialize_superblock ni nb r' ((fs p).getD 0) with
    | error e => rfl
    | ok sb => exact ih _ _ _ _

theorem runMkfs_parse_error (u g t : Nat) (opts : List CliOpt)
    (fs : String → Option Nat) (e : MkfsError)
    (hp : parseArgs opts = Except.error e) :
    runMkfs u g t opts fs =
      { outcome := Except.error e, opened := [], created := []
        writes := [], images := [] } := by
  unfold runMkfs
  rw [hp]

theorem runMkfs_err (u g t : Nat) (opts : List CliOpt) (fs : String → Option Nat)
    (cfg : Config) (st : RunState) (sbL : Option wfs_sb) (e : MkfsError)
    (hp : parseArgs opts = Except.ok cfg)
    (hF : formatDisks cfg.num_inodes (roundUp32 cfg.num_blocks) cfg.raid_mode
        cfg.disks 0 fs { opened := [], created := [], writes := [], images := [] } none
      = (st, sbL, some e)) :
    runMkfs u g t opts fs =
      { outcome := Except.error e, opened := st.opened, created := st.created
        writes := st.writes, images := st.images } := by
  unfold runMkfs
  rw [hp]
  dsimp only
  rw [hF]
  cases sbL <;> rfl

theorem runMkfs_ok_final (u g t : Nat) (opts : List CliOpt) (fs : String → Option Nat)
    (cfg : Config) (st : RunState) (sbLast : wfs_sb)
    (hp : parseArgs opts = Except.ok cfg)
    (hF : formatDisks cfg.num_inodes (roundUp32 cfg.num_blocks) cfg.raid_mode
        cfg.disks 0 fs { opened := [], created := [], writes := [], images := [] } none
      = (st, some sbLast, none)) :
    runMkfs u g t opts fs =
      { outcome := Except.ok ()
        opened := (rootPhase u g t sbLast st).opened
        created := (rootPhase u g t sbLast st).created
        writes := (rootPhase u g t sbLast st).writes
        images := (rootPhase u g t sbLast st).images } := by
  unfold runMkfs
  rw [hp]
  dsimp only
  rw [hF]

theorem roundUp32_ge32 (n : Nat) (h : n ≠ 0) : 32 ≤ roundUp32 n := by
  unfold roundUp32
  omega

theorem replicate_getD (W i : Nat) : (List.replicate W (0 : Nat)).getD i 0 = 0 := by
  rw [List.getD_eq_getElem?_getD, List.getElem?_replicate]
  split <;> rfl

theorem set_one_getD_pos (W i : Nat) (hi : 1 ≤ i) :
    ((List.replicate W (0 : Nat)).set 0 1).getD i 0 = 0 := by
  rw [List.getD_eq_getElem?_getD, List.getElem?_set_ne (show (0 : Nat) ≠ i by omega),
    List.getElem?_replicate]
  split <;> rfl

theorem set_one_getD_zero (W : Nat) (hW : 1 ≤ W) :
    ((List.replicate W (0 : Nat)).set 0 1).getD 0 0 = 1 := by
  rw [List.getD_eq_getElem?_getD,
    List.getElem?_set_eq_of_lt _ (by simpa using hW)]
  rfl

theorem testBit_one_pos (n : Nat) (h : 1 ≤ n) : Nat.testBit 1 n = false := by
  rw [Nat.testBit_to_div_mod]
  have h2 : 2 ^ 1 ≤ 2 ^ n := Nat.pow_le_pow_right (by omega) h
  have h3 : 1 / 2 ^ n = 0 := Nat.div_eq_of_lt (by omega)
  rw [h3]
  rfl

theorem runMkfs_ok_char (u g t : Nat) (opts : List CliOpt) (fs : String → Option Nat)
    (cfg : Config)
    (hp : parseArgs opts = Except.ok cfg)
    (h : (runMkfs u g t opts fs).outcome = Except.ok ()) :
    ∀ img ∈ (runMkfs u g t opts fs).images, ∃ p s,
      layoutFits cfg.num_inodes (roundUp32 cfg.num_blocks) s ∧
      img = rootedImage u g t cfg.num_inodes (roundUp32 cfg.num_blocks) p s := by
  rcases hF : formatDisks cfg.num_inodes (roundUp32 cfg.num_blocks) cfg.raid_mode
      cfg.disks 0 fs { opened := [], created := [], writes := [], images := [] } none
    with ⟨st, sbL, err⟩
  cases err with
  | some e =>
    rw [runMkfs_err u g t opts fs cfg st sbL e hp hF] at h
    simp at h
  | none =>
    cases sbL with
    | none =>
      have hsb := formatDisks_sbLast cfg.num_inodes (roundUp32 cfg.num_blocks)
        cfg.raid_mode cfg.disks 0 fs
        { opened := [], created := [], writes := [], images := [] } none
        (by rw [hF])
      rw [hF] at hsb
      rcases hsb with h1 | ⟨hd, h1⟩
      · simp at h1
      · obtain ⟨-, -, hlen⟩ := parseLoop_ok_facts opts (-1) [] 0 0 cfg hp
        rw [hd] at hlen
        simp at hlen
    | some sbLast =>
      have hsb := formatDisks_sbLast cfg.num_inodes (roundUp32 cfg.num_blocks)
        cfg.raid_mode cfg.disks 0 fs
        { opened := [], created := [], writes := [], images := [] } none
        (by rw [hF])
      rw [hF] at hsb
      have hsbl : sbLast = computeSuperblock cfg.num_inodes (roundUp32 cfg.num_blocks) := by
        rcases hsb with h1 | ⟨-, h1⟩
        · simpa using h1
        · simp at h1
      rw [runMkfs_ok_final u g t opts fs cfg st sbLast hp hF]
      intro img himg
      simp only [rootPhase, List.mem_map] at himg
      obtain ⟨img1, ⟨img0, himg0, hq1⟩, hq2⟩ := himg
      have hchar := formatDisks_images_char cfg.num_inodes (roundUp32 cfg.num_blocks)
        cfg.raid_mode cfg.disks 0 fs
        { opened := [], created := [], writes := [], images := [] } none img0
        (by rw [hF]; exact himg0)
      rcases hchar with h1 | ⟨p, s, hfit, h1⟩
      · simp at h1
      · refine ⟨p, s, hfit, ?_⟩
        subst h1
        rw [← hq2, ← hq1]
        rw [hsbl]
        simp [freshImage, rootedImage, Nat.sub_self, Nat.zero_div]

theorem parseLoop_raid_mode :
    ∀ (opts : List CliOpt) (disks : List String) (ni nb : Nat) (r r' : Int),
      r ≠ -1 → r' ≠ -1 →
      parseLoop opts r disks ni nb = parseLoop opts r' disks ni nb ∨
      ∃ ds NI NB,
        parseLoop opts r disks ni nb
          = Except.ok { raid_mode := r, disks := ds, num_inodes := NI, num_blocks := NB } ∧
        parseLoop opts r' disks ni nb
          = Except.ok { raid_mode := r', disks := ds, num_inodes := NI, num_blocks := NB } := by
  intro opts
  induction opts with
  | nil =>
    intro disks ni nb r r' hr hr'
    by_cases hc : disks.length < 2 ∨ ni = 0 ∨ nb = 0
    · left
      simp only [parseLoop]
      rw [if_pos (Or.inr hc), if_pos (Or.inr hc)]
    · right
      push_neg at hc
      refine ⟨disks, ni, nb, ?_, ?_⟩
      · simp only [parseLoop]
        rw [if_neg (by push_neg; exact ⟨hr, hc.1, hc.2.1, hc.2.2⟩)]
      · simp only [parseLoop]
        rw [if_neg (by push_neg; exact ⟨hr', hc.1, hc.2.1, hc.2.2⟩)]
  | cons o rest ih =>
    intro disks ni nb r r' hr hr'
    cases o with
    | r v =>
      left
      simp only [parseLoop]
    | d p =>
      by_cases hd : disks.length ≥ 32
      · left
        simp only [parseLoop]
        rw [if_pos hd, if_pos hd]
      · simp only [parseLoop]
        rw [if_neg hd, if_neg hd]
        exact ih _ _ _ _ _ hr hr'
    | i v =>
      simp only [parseLoop]
      exact ih _ _ _ _ _ hr hr'
    | b v =>
      simp only [parseLoop]
      exact ih _ _ _ _ _ hr hr'

theorem rootedImage_table (u g t ni nb : Nat) (p : String) (s : Nat) (hni : ni ≠ 0) :
    (rootedImage u g t ni nb p s).table.length = roundUp32 ni ∧
    (rootedImage u g t ni nb p s).table[0]? = some (rootInode u g t) ∧
    ∀ j, 1 ≤ j → j < roundUp32 ni →
      (rootedImage u g t ni nb p s).table[j]? = some emptyInode := by
  have hN : 32 ≤ roundUp32 ni := roundUp32_ge32 ni hni
  refine ⟨?_, ?_, ?_⟩
  · show ((initialize_inodes (computeSuperblock ni nb).num_inodes).set 0
      (rootInode u g t)).length = roundUp32 ni
    rw [List.length_set]
    show (List.replicate (roundUp32 ni) emptyInode).length = roundUp32 ni
    rw [List.length_replicate]
  · show ((initialize_inodes (computeSuperblock ni nb).num_inodes).set 0
      (rootInode u g t))[0]? = some (rootInode u g t)
    apply List.getElem?_set_eq_of_lt
    show 0 < (List.replicate (roundUp32 ni) emptyInode).length
    rw [List.length_replicate]
    omega
  · intro j h1 h2
    show ((initialize_inodes (computeSuperblock ni nb).num_inodes).set 0
      (rootInode u g t))[j]? = some emptyInode
    rw [List.getElem?_set_ne (show (0 : Nat) ≠ j by omega)]
    show (List.replicate (roundUp32 ni) emptyInode)[j]? = some emptyInode
    rw [List.getElem?_replicate, if_pos h2]

theorem rootedImage_bitmaps (u g t ni nb : Nat) (p : String) (s : Nat) (hni : ni ≠ 0) :
    bitmapBit (rootedImage u g t ni nb p s).iBitmap 0 = true ∧
    (∀ j, 1 ≤ j → bitmapBit (rootedImage u g t ni nb p s).iBitmap j = false) ∧
    (∀ j, bitmapBit (rootedImage u g t ni nb p s).dBitmap j = false) := by
  have hW : 1 ≤ (ni + 31) / 32 := by omega
  refine ⟨?_, ?_, ?_⟩
  · show Nat.testBit
      ((((List.replicate ((ni + 31) / 32) (0 : Nat)).set 0 1)).getD 0 0) 0 = true
    rw [set_one_getD_zero _ hW]
    rfl
  · intro j h1
    show Nat.testBit
      ((((List.replicate ((ni + 31) / 32) (0 : Nat)).set 0 1)).getD (j / 32) 0) (j % 32) = false
    by_cases hj : j < 32
    · rw [Nat.div_eq_of_lt hj, Nat.mod_eq_of_lt hj, set_one_getD_zero _ hW]
      exact testBit_one_pos j h1
    · rw [set_one_getD_pos _ _ (by omega)]
      exact Nat.zero_testBit _
  · intro j
    show Nat.testBit
      ((List.replicate ((nb + 31) / 32) (0 : Nat)).getD (j / 32) 0) (j % 32) = false
    rw [replicate_getD]
    exact Nat.zero_testBit _

/-! ### Claims about the pure layout calculator -/

/-- C1. The layout calculator fails with the disk-too-small error exactly
when the computed `d_blocks_ptr + num_blocks * BLOCK_SIZE` exceeds the disk
size, and succeeds (returning the computed superblock) for every disk size
greater than or equal to that value. -/
theorem C1_diskTooSmall_iff (ni nb : Nat) (raid : Int) (disk_size : Nat) :
    (initialize_superblock ni nb raid disk_size = Except.error MkfsError.DiskTooSmall ↔
      (computeSuperblock ni nb).d_blocks_ptr + nb * BLOCK_SIZE > disk_size) ∧
    (initialize_superblock ni nb raid disk_size = Except.ok (computeSuperblock ni nb) ↔
      (computeSuperblock ni nb).d_blocks_ptr + nb * BLOCK_SIZE ≤ disk_size) := by
  unfold initialize_superblock
  by_cases h : (computeSuperblock ni nb).d_blocks_ptr + nb * BLOCK_SIZE > disk_size
  · simp [h] <;> omega
  · simp [h] <;> omega

/-- C3. The rounding claim fails on the program's own `size_t` arithmetic
at a reachable input, contradicting the code's own comments ("Round up the
number of inodes to the nearest multiple of 32", `mkfs.c:16` and
`mkfs.c:159`): for the request `num_blocks = ULONG_MAX = 2^64 - 1`
(`strtoul` clamps any larger `-b` argument to it), the addition `n + 31`
at `mkfs.c:159` wraps and the rounding yields 0 instead of a multiple of
32 at least the request; the superblock then records
`num_data_blocks = 0`, its data bitmap occupies 0 bytes instead of
`ceil(count / 32) * 4`, and the format nevertheless passes validation on an
ordinary 1 MiB disk and succeeds.  The same wrap hits the inode rounding at
`mkfs.c:17`. -/
theorem C3_sizet_wrap_rounds_to_zero :
    roundUp32_sizet (2 ^ 64 - 1) = 0 ∧
    ¬ (2 ^ 64 - 1 ≤ roundUp32_sizet (2 ^ 64 - 1)) ∧
    roundUp32_sizet (2 ^ 64 - 1) ≠ roundUp32 (2 ^ 64 - 1) ∧
    initialize_superblock 1 (roundUp32_sizet (2 ^ 64 - 1)) 0 1048576
      = Except.ok (computeSuperblock 1 0) ∧
    (computeSuperblock 1 0).num_data_blocks = 0 ∧
    (initialize_bitmap (roundUp32_sizet (2 ^ 64 - 1)) false).length * SIZEOF_INT
      = 0 := by
  refine ⟨?_, ?_, ?_, ?_, ?_, ?_⟩ <;> decide

/-- C4. The computed layout places the regions in the fixed order
superblock, inode bitmap, data bitmap, inode table, data blocks; the inode
bitmap starts exactly at the end of the superblock and the data bitmap
exactly at the end of the inode bitmap (no gap), and the inode-table and
data-region offsets are multiples of `BLOCK_SIZE`. -/
theorem C4_region_order_and_alignment (ni nb : Nat) :
    (computeSuperblock ni nb).i_bitmap_ptr = SIZEOF_WFS_SB ∧
    (computeSuperblock ni nb).d_bitmap_ptr
      = (computeSuperblock ni nb).i_bitmap_ptr
        + (initialize_bitmap ni false).length * SIZEOF_INT ∧
    (computeSuperblock ni nb).d_bitmap_ptr
        + (initialize_bitmap nb false).length * SIZEOF_INT
      ≤ (computeSuperblock ni nb).i_blocks_ptr ∧
    (computeSuperblock ni nb).i_blocks_ptr
        + (computeSuperblock ni nb).num_inodes * BLOCK_SIZE
      ≤ (computeSuperblock ni nb).d_blocks_ptr ∧
    (computeSuperblock ni nb).i_blocks_ptr % BLOCK_SIZE = 0 ∧
    (computeSuperblock ni nb).d_blocks_ptr % BLOCK_SIZE = 0 := by
  obtain ⟨-, -, h3, h4⟩ := computeSuperblock_fields ni nb
  refine ⟨h3, ?_, ?_, computeSuperblock_table_before_data ni nb,
    computeSuperblock_i_blocks_aligned ni nb,
    computeSuperblock_d_blocks_aligned ni nb⟩
  · rw [h4, h3]
    simp [initialize_bitmap]
  · have h := computeSuperblock_bitmap_before_table ni nb
    simpa [initialize_bitmap] using h

/-- C2, counterexample: the claim "the whole format operation fails before
any write is performed to any disk" is false on the code.  With two disks
where the first (1 MiB) fits and the second (0 bytes) violates the fit
invariant, the run fails with the disk-too-small error, but the write log
is not empty: the first disk has already received its superblock, bitmaps
and inode table before the second disk is validated. -/
theorem C2_counterexample :
    (runMkfs 0 0 0 [CliOpt.r 0, CliOpt.d "a", CliOpt.d "b", CliOpt.i 1, CliOpt.b 1]
        (fun p => if p = "a" then some 1048576 else some 0)).outcome
      = Except.error MkfsError.DiskTooSmall ∧
    (runMkfs 0 0 0 [CliOpt.r 0, CliOpt.d "a", CliOpt.d "b", CliOpt.i 1, CliOpt.b 1]
        (fun p => if p = "a" then some 1048576 else some 0)).writes ≠ [] := by
  constructor
  · decide
  · decide

/-- C2, amended: if the fit invariant is violated for any participating
disk, the whole format operation fails with the disk-too-small error, and
no write is ever performed to any disk that violates the invariant — every
disk that receives a write passed its fit validation.  (Disks earlier in
the list that passed validation may already have been written.) -/
theorem C2_amended_no_write_to_violating_disk (u g t : Nat) (opts : List CliOpt)
    (fs : String → Option Nat) (cfg : Config)
    (hp : parseArgs opts = Except.ok cfg)
    (hviol : ∃ j, j < cfg.disks.length ∧
      ¬ layoutFits cfg.num_inodes (roundUp32 cfg.num_blocks)
        ((fs (cfg.disks.getD j "")).getD 0)) :
    (runMkfs u g t opts fs).outcome = Except.error MkfsError.DiskTooSmall ∧
    ∀ e ∈ (runMkfs u g t opts fs).writes,
      layoutFits cfg.num_inodes (roundUp32 cfg.num_blocks)
        ((fs (cfg.disks.getD e.disk "")).getD 0) := by
  obtain ⟨j, hj, hnv⟩ := hviol
  rcases hF : formatDisks cfg.num_inodes (roundUp32 cfg.num_blocks) cfg.raid_mode
      cfg.disks 0 fs { opened := [], created := [], writes := [], images := [] } none
    with ⟨st, sbL, err⟩
  have herr : err = some MkfsError.DiskTooSmall := by
    have hx := formatDisks_err_of_violation cfg.num_inodes (roundUp32 cfg.num_blocks)
      cfg.raid_mode cfg.disks 0 fs
      { opened := [], created := [], writes := [], images := [] } none j hj hnv
    rw [hF] at hx
    exact hx
  subst herr
  rw [runMkfs_err u g t opts fs cfg st sbL MkfsError.DiskTooSmall hp hF]
  refine ⟨rfl, ?_⟩
  intro e he
  have hw := formatDisks_writes_fits cfg.num_inodes (roundUp32 cfg.num_blocks)
    cfg.raid_mode cfg.disks 0 fs
    { opened := [], created := [], writes := [], images := [] } none e
    (by rw [hF]; exact he)
  rcases hw with h1 | ⟨j0, hj0, hd, hfj⟩
  · simp at h1
  · have hx := hfj j0 le_rfl
    rw [hd]
    simpa using hx

/-- C2, amended claim witnessed at a concrete input: two disks, the first
fits, the second (size 0) violates the invariant; the run fails with
disk-too-small and every written disk passed validation. -/
theorem C2_amended_witness :
    parseArgs [CliOpt.r 0, CliOpt.d "a", CliOpt.d "b", CliOpt.i 1, CliOpt.b 1]
      = Except.ok { raid_mode := 0, disks := ["a", "b"], num_inodes := 1, num_blocks := 1 } ∧
    (∃ j, j < (["a", "b"] : List String).length ∧
      ¬ layoutFits 1 (roundUp32 1)
        (((fun p => if p = "a" then some 1048576 else some 0)
          ((["a", "b"] : List String).getD j "")).getD 0)) ∧
    ((runMkfs 0 0 0 [CliOpt.r 0, CliOpt.d "a", CliOpt.d "b", CliOpt.i 1, CliOpt.b 1]
        (fun p => if p = "a" then some 1048576 else some 0)).outcome
      = Except.error MkfsError.DiskTooSmall ∧
    ∀ e ∈ (runMkfs 0 0 0 [CliOpt.r 0, CliOpt.d "a", CliOpt.d "b", CliOpt.i 1, CliOpt.b 1]
        (fun p => if p = "a" then some 1048576 else some 0)).writes,
      layoutFits 1 (roundUp32 1)
        (((fun p => if p = "a" then some 1048576 else some 0)
          ((["a", "b"] : List String).getD e.disk "")).getD 0)) :=
  ⟨by decide, ⟨1, by decide, by decide⟩,
    C2_amended_no_write_to_violating_disk 0 0 0
      [CliOpt.r 0, CliOpt.d "a", CliOpt.d "b", CliOpt.i 1, CliOpt.b 1]
      (fun p => if p = "a" then some 1048576 else some 0)
      { raid_mode := 0, disks := ["a", "b"], num_inodes := 1, num_blocks := 1 }
      (by decide) ⟨1, by decide, by decide⟩⟩

/-- C5. After a successful format, on every participating disk, inode slot
0 decodes to a directory-type record with permission bits 0755, owner and
group equal to the invoking user's identifiers, size 0, link count 2, all
three timestamps set to the format time, and all block pointers zero; this
record is identical on every disk; and inode slots 1..N-1 hold the all-zero
record. -/
theorem C5_root_inode (u g t : Nat) (opts : List CliOpt) (fs : String → Option Nat)
    (h : (runMkfs u g t opts fs).outcome = Except.ok ()) :
    ∀ img ∈ (runMkfs u g t opts fs).images, ∃ r0 : wfs_inode,
      img.table[0]? = some r0 ∧
      r0.mode &&& 0o170000 = S_IFDIR ∧
      r0.mode &&& 0o777 = 0o755 ∧
      r0.uid = u ∧ r0.gid = g ∧ r0.size = 0 ∧ r0.nlinks = 2 ∧
      r0.atim = t ∧ r0.mtim = t ∧ r0.ctim = t ∧
      (∀ b ∈ r0.blocks, b = 0) ∧
      (∀ img' ∈ (runMkfs u g t opts fs).images, img'.table[0]? = some r0) ∧
      (∀ j, 1 ≤ j → j < img.table.length → img.table[j]? = some emptyInode) := by
  cases hp : parseArgs opts with
  | error e =>
    rw [runMkfs_parse_error u g t opts fs e hp] at h
    simp at h
  | ok cfg =>
    have hchar := runMkfs_ok_char u g t opts fs cfg hp h
    obtain ⟨hni, -, -⟩ := parseLoop_ok_facts opts (-1) [] 0 0 cfg hp
    intro img himg
    obtain ⟨p, s, -, himgEq⟩ := hchar img himg
    obtain ⟨hlen, h0, hrest⟩ :=
      rootedImage_table u g t cfg.num_inodes (roundUp32 cfg.num_blocks) p s hni
    refine ⟨rootInode u g t, by rw [himgEq]; exact h0,
      (by decide : (S_IFDIR ||| 0o755) &&& 0o170000 = S_IFDIR),
      (by decide : (S_IFDIR ||| 0o755) &&& 0o777 = 0o755),
      rfl, rfl, rfl, rfl, rfl, rfl, rfl,
      fun b hb => List.eq_of_mem_replicate hb, ?_, ?_⟩
    · intro img' himg'
      obtain ⟨p', s', -, himgEq'⟩ := hchar img' himg'
      rw [himgEq']
      exact (rootedImage_table u g t cfg.num_inodes (roundUp32 cfg.num_blocks) p' s' hni).2.1
    · intro j h1 h2
      rw [himgEq] at h2 ⊢
      rw [hlen] at h2
      exact hrest j h1 h2

/-- C5, witnessed on a successful concrete run (uid 7, gid 9, format time
1000, two 1 MiB disks, one requested inode and block). -/
theorem C5_root_inode_witness :
    (runMkfs 7 9 1000 [CliOpt.r 0, CliOpt.d "a", CliOpt.d "b", CliOpt.i 1, CliOpt.b 1]
        (fun _ => some 1048576)).outcome = Except.ok () ∧
    ∀ img ∈ (runMkfs 7 9 1000 [CliOpt.r 0, CliOpt.d "a", CliOpt.d "b", CliOpt.i 1, CliOpt.b 1]
        (fun _ => some 1048576)).images, ∃ r0 : wfs_inode,
      img.table[0]? = some r0 ∧
      r0.mode &&& 0o170000 = S_IFDIR ∧
      r0.mode &&& 0o777 = 0o755 ∧
      r0.uid = 7 ∧ r0.gid = 9 ∧ r0.size = 0 ∧ r0.nlinks = 2 ∧
      r0.atim = 1000 ∧ r0.mtim = 1000 ∧ r0.ctim = 1000 ∧
      (∀ b ∈ r0.blocks, b = 0) ∧
      (∀ img' ∈ (runMkfs 7 9 1000
          [CliOpt.r 0, CliOpt.d "a", CliOpt.d "b", CliOpt.i 1, CliOpt.b 1]
          (fun _ => some 1048576)).images, img'.table[0]? = some r0) ∧
      (∀ j, 1 ≤ j → j < img.table.length → img.table[j]? = some emptyInode) :=
  ⟨by decide,
    C5_root_inode 7 9 1000 [CliOpt.r 0, CliOpt.d "a", CliOpt.d "b", CliOpt.i 1, CliOpt.b 1]
      (fun _ => some 1048576) (by decide)⟩

/-- C6. After a successful format, on every participating disk, bit 0 of
the inode bitmap is set and every other bit of the inode bitmap, and every
bit of the data bitmap, is clear. -/
theorem C6_bitmap_bits (u g t : Nat) (opts : List CliOpt) (fs : String → Option Nat)
    (h : (runMkfs u g t opts fs).outcome = Except.ok ()) :
    ∀ img ∈ (runMkfs u g t opts fs).images,
      bitmapBit img.iBitmap 0 = true ∧
      (∀ j, 1 ≤ j → bitmapBit img.iBitmap j = false) ∧
      (∀ j, bitmapBit img.dBitmap j = false) := by
  cases hp : parseArgs opts with
  | error e =>
    rw [runMkfs_parse_error u g t opts fs e hp] at h
    simp at h
  | ok cfg =>
    have hchar := runMkfs_ok_char u g t opts fs cfg hp h
    obtain ⟨hni, -, -⟩ := parseLoop_ok_facts opts (-1) [] 0 0 cfg hp
    intro img himg
    obtain ⟨p, s, -, himgEq⟩ := hchar img himg
    rw [himgEq]
    exact rootedImage_bitmaps u g t cfg.num_inodes (roundUp32 cfg.num_blocks) p s hni

/-- C6, witnessed on a successful concrete run. -/
theorem C6_bitmap_bits_witness :
    (runMkfs 7 9 1000 [CliOpt.r 1, CliOpt.d "a", CliOpt.d "b", CliOpt.i 1, CliOpt.b 1]
        (fun _ => some 1048576)).outcome = Except.ok () ∧
    ∀ img ∈ (runMkfs 7 9 1000 [CliOpt.r 1, CliOpt.d "a", CliOpt.d "b", CliOpt.i 1, CliOpt.b 1]
        (fun _ => some 1048576)).images,
      bitmapBit img.iBitmap 0 = true ∧
      (∀ j, 1 ≤ j → bitmapBit img.iBitmap j = false) ∧
      (∀ j, bitmapBit img.dBitmap j = false) :=
  ⟨by decide,
    C6_bitmap_bits 7 9 1000 [CliOpt.r 1, CliOpt.d "a", CliOpt.d "b", CliOpt.i 1, CliOpt.b 1]
      (fun _ => some 1048576) (by decide)⟩

/-- C7, counterexample: the claim that the selected RAID mode is recorded
in the formatted metadata (superblock) is false on the code.
`initialize_superblock` receives `raid_mode` but never stores it, and the
superblock has no field holding it; at a concrete input the entire
observable result of formatting with RAID mode 0 equals the result with
RAID mode 1, so no field of the formatted metadata can encode the mode. -/
theorem C7_counterexample :
    runMkfs 0 0 0 [CliOpt.r 0, CliOpt.d "a", CliOpt.d "b", CliOpt.i 1, CliOpt.b 1]
        (fun _ => some 1048576)
      = runMkfs 0 0 0 [CliOpt.r 1, CliOpt.d "a", CliOpt.d "b", CliOpt.i 1, CliOpt.b 1]
        (fun _ => some 1048576) ∧
    (runMkfs 0 0 0 [CliOpt.r 0, CliOpt.d "a", CliOpt.d "b", CliOpt.i 1, CliOpt.b 1]
        (fun _ => some 1048576)).outcome = Except.ok () := by
  constructor
  · decide
  · decide

/-- C7, amended: the RAID mode (0 or 1) is validated by the option parser
but is not recorded anywhere in the formatted metadata; the per-disk write
pattern and every byte of formatted metadata are identical regardless of
mode — formatting with mode 0 and mode 1 produce the same observable
result on all inputs. -/
theorem C7_amended_raid_mode_no_effect (u g t : Nat) (ds : List String) (ni nb : Nat)
    (fs : String → Option Nat) :
    runMkfs u g t (CliOpt.r 0 :: (ds.map CliOpt.d ++ [CliOpt.i ni, CliOpt.b nb])) fs
      = runMkfs u g t (CliOpt.r 1 :: (ds.map CliOpt.d ++ [CliOpt.i ni, CliOpt.b nb])) fs := by
  have h0 : parseArgs (CliOpt.r 0 :: (ds.map CliOpt.d ++ [CliOpt.i ni, CliOpt.b nb]))
      = parseLoop (ds.map CliOpt.d ++ [CliOpt.i ni, CliOpt.b nb]) 0 [] 0 0 := by
    simp [parseArgs, parseLoop]
  have h1 : parseArgs (CliOpt.r 1 :: (ds.map CliOpt.d ++ [CliOpt.i ni, CliOpt.b nb]))
      = parseLoop (ds.map CliOpt.d ++ [CliOpt.i ni, CliOpt.b nb]) 1 [] 0 0 := by
    simp [parseArgs, parseLoop]
  rcases parseLoop_raid_mode (ds.map CliOpt.d ++ [CliOpt.i ni, CliOpt.b nb]) [] 0 0 0 1
      (by omega) (by omega) with heq | ⟨dsx, NI, NB, hA, hB⟩
  · unfold runMkfs
    rw [h0, h1, heq]
  · unfold runMkfs
    rw [h0, h1, hA, hB]
    dsimp only
    rw [formatDisks_raid_irrel NI (roundUp32 NB) 0 1]

/-- C8. The superblock computed for a disk does not depend on the disk's
size beyond passing the fit validation: any two validated computations with
the same inode/block counts yield equal superblocks, and after a successful
format all per-disk superblocks are identical. -/
theorem C8_superblock_disk_size_independent :
    (∀ (ni nb : Nat) (r r' : Int) (d d' : Nat) (sb sb' : wfs_sb),
        initialize_superblock ni nb r d = Except.ok sb →
        initialize_superblock ni nb r' d' = Except.ok sb' → sb = sb') ∧
    (∀ (u g t : Nat) (opts : List CliOpt) (fs : String → Option Nat),
        (runMkfs u g t opts fs).outcome = Except.ok () →
        ∀ img ∈ (runMkfs u g t opts fs).images,
          ∀ img' ∈ (runMkfs u g t opts fs).images, img.sb = img'.sb) := by
  constructor
  · intro ni nb r r' d d' sb sb' h h'
    obtain ⟨-, h2⟩ := (initialize_superblock_ok_iff ni nb r d sb).mp h
    obtain ⟨-, h2'⟩ := (initialize_superblock_ok_iff ni nb r' d' sb').mp h'
    rw [h2, h2']
  · intro u g t opts fs h img himg img' himg'
    cases hp : parseArgs opts with
    | error e =>
      rw [runMkfs_parse_error u g t opts fs e hp] at h
      simp at h
    | ok cfg =>
      have hchar := runMkfs_ok_char u g t opts fs cfg hp h
      obtain ⟨p, s, -, h1⟩ := hchar img himg
      obtain ⟨p', s', -, h2⟩ := hchar img' himg'
      rw [h1, h2]
      rfl

/-- C8, witnessed: two validated computations at disk sizes 1 MiB and 2 MiB
with the same counts yield the same superblock. -/
theorem C8_witness :
    initialize_superblock 1 1 0 1048576 = Except.ok (computeSuperblock 1 1) ∧
    initialize_superblock 1 1 1 2097152 = Except.ok (computeSuperblock 1 1) ∧
    computeSuperblock 1 1 = computeSuperblock 1 1 :=
  ⟨by decide, by decide,
    C8_superblock_disk_size_independent.1 1 1 0 1 1048576 2097152
      (computeSuperblock 1 1) (computeSuperblock 1 1) (by decide) (by decide)⟩

/-- C10. A disk path naming no existing file is not reported as an open
failure: `O_CREAT` creates the file, its measured size is 0, and — provided
every disk before it passed validation, so the loop reaches it — the format
fails with the disk-too-small error, with no write ever issued to the new
file (or any later disk), leaving the newly created file behind empty. -/
theorem C10_missing_disk_file (u g t : Nat) (opts : List CliOpt)
    (fs : String → Option Nat) (cfg : Config) (k : Nat) (p : String)
    (hp : parseArgs opts = Except.ok cfg)
    (hk : cfg.disks[k]? = some p)
    (hmiss : fs p = none)
    (hfit : ∀ j, j < k → layoutFits cfg.num_inodes (roundUp32 cfg.num_blocks)
      ((fs (cfg.disks.getD j "")).getD 0)) :
    (runMkfs u g t opts fs).outcome = Except.error MkfsError.DiskTooSmall ∧
    (p, 0) ∈ (runMkfs u g t opts fs).created ∧
    ∀ e ∈ (runMkfs u g t opts fs).writes, e.disk < k := by
  rcases hF : formatDisks cfg.num_inodes (roundUp32 cfg.num_blocks) cfg.raid_mode
      cfg.disks 0 fs { opened := [], created := [], writes := [], images := [] } none
    with ⟨st, sbL, err⟩
  obtain ⟨h1, h2, h3⟩ := formatDisks_missing cfg.num_inodes (roundUp32 cfg.num_blocks)
    cfg.raid_mode cfg.disks 0 fs
    { opened := [], created := [], writes := [], images := [] } none k p hk hmiss hfit
  rw [hF] at h1 h2 h3
  have herr : err = some MkfsError.DiskTooSmall := h1
  subst herr
  rw [runMkfs_err u g t opts fs cfg st sbL MkfsError.DiskTooSmall hp hF]
  refine ⟨rfl, h2, ?_⟩
  intro e he
  rcases h3 e he with h4 | h4
  · simp at h4
  · simpa using h4

/-- C10, witnessed: disk "a" (1 MiB) passes validation, disk "b" does not
exist; the run creates "b" empty, fails with disk-too-small, and never
writes to it. -/
theorem C10_missing_disk_file_witness :
    (fun p => if p = "a" then some 1048576 else none : String → Option Nat) "b" = none ∧
    ((runMkfs 0 0 0 [CliOpt.r 0, CliOpt.d "a", CliOpt.d "b", CliOpt.i 1, CliOpt.b 1]
        (fun p => if p = "a" then some 1048576 else none)).outcome
      = Except.error MkfsError.DiskTooSmall ∧
    ("b", 0) ∈ (runMkfs 0 0 0 [CliOpt.r 0, CliOpt.d "a", CliOpt.d "b", CliOpt.i 1, CliOpt.b 1]
        (fun p => if p = "a" then some 1048576 else none)).created ∧
    ∀ e ∈ (runMkfs 0 0 0 [CliOpt.r 0, CliOpt.d "a", CliOpt.d "b", CliOpt.i 1, CliOpt.b 1]
        (fun p => if p = "a" then some 1048576 else none)).writes, e.disk < 1) :=
  ⟨by decide,
    C10_missing_disk_file 0 0 0
      [CliOpt.r 0, CliOpt.d "a", CliOpt.d "b", CliOpt.i 1, CliOpt.b 1]
      (fun p => if p = "a" then some 1048576 else none)
      { raid_mode := 0, disks := ["a", "b"], num_inodes := 1, num_blocks := 1 }
      1 "b" (by decide) (by decide) (by decide)
      (by
        intro j hj
        have hj0 : j = 0 := by omega
        subst hj0
        decide)⟩

/-- C9. The program accepts at most 32 disk paths: an argument list
carrying a 33rd `-d` option makes the `getopt` loop fail with the usage
error before the per-disk loop runs, so no disk image is opened or
written. -/
theorem C9_max32_disks (opts : List CliOpt) (h : 33 ≤ countD opts)
    (u g t : Nat) (fs : String → Option Nat) :
    runMkfs u g t opts fs =
      { outcome := Except.error MkfsError.Usage
        opened := [], created := [], writes := [], images := [] } := by
  have hp : parseArgs opts = Except.error MkfsError.Usage := by
    unfold parseArgs
    exact parseLoop_tooMany opts (-1) [] 0 0 (by simp) (by simpa using h)
  unfold runMkfs
  rw [hp]

/-- C9, witnessed: 33 `-d` options are rejected with a usage failure and an
empty open/write log. -/
theorem C9_max32_disks_witness :
    33 ≤ countD (List.replicate 33 (CliOpt.d "x")) ∧
    runMkfs 0 0 0 (List.replicate 33 (CliOpt.d "x")) (fun _ => none) =
      { outcome := Except.error MkfsError.Usage
        opened := [], created := [], writes := [], images := [] } :=
  ⟨by decide, C9_max32_disks _ (by decide) 0 0 0 _⟩

end Mkfs
